import Mathlib

/-!
Verification of the belay repository (host/device bridge, filesystem sync,
CLI sync command, dependency-configuration schema) against its
natural-language specification.

Python strings are modelled as `List Char`; Python `None`/values crossing the
host/device boundary as the inductive `PyVal`; fallible Python code as
`Option`/`Except`.  Each section names the source function it embeds.
-/

/-- Python strings, modelled as lists of characters. -/
abbrev PyStr := List Char

/-- Whitespace recognized by Python's `str.strip` (ASCII subset). -/
def isPySpace (c : Char) : Bool :=
  c = ' ' || c = '\t' || c = '\n' || c = '\r' || c = '\x0b' || c = '\x0c'

/-- Python `s.strip()`: remove leading and trailing whitespace. -/
def pyStrip (s : PyStr) : PyStr :=
  ((s.dropWhile isPySpace).reverse.dropWhile isPySpace).reverse

/-- Helper for `splitOnChar`: returns the first field and the remaining fields. -/
def splitOnCharA (c : Char) : PyStr → PyStr × List PyStr
  | [] => ([], [])
  | x :: xs =>
    let p := splitOnCharA c xs
    if x = c then ([], p.1 :: p.2) else (x :: p.1, p.2)

/-- Python `s.split(c)` for a single-character separator (always nonempty). -/
def splitOnChar (c : Char) (s : PyStr) : List PyStr :=
  (splitOnCharA c s).1 :: (splitOnCharA c s).2

/-- Join a list of strings with a single-character separator. -/
def joinWith (c : Char) : List PyStr → PyStr
  | [] => []
  | [x] => x
  | x :: y :: t => x ++ c :: joinWith c (y :: t)

/-- Python `s.split(",", 2)`: at most two splits, the tail keeps its commas. -/
def splitComma2 (s : PyStr) : List PyStr :=
  let parts := splitOnChar ',' s
  if parts.length ≤ 3 then parts
  else parts.take 2 ++ [joinWith ',' (parts.drop 2)]

/-- Parse a nonempty all-digit string into a natural number. -/
def digitsToNat : PyStr → Option Nat
  | [] => none
  | l =>
    l.foldl (fun acc c =>
      acc.bind (fun n => if c.isDigit then some (10 * n + (c.toNat - 48)) else none))
      (some 0)

/-- Python `int(s)` on decimal text: strip whitespace, optional sign, digits;
`none` models the `ValueError` raised on malformed input. -/
def pyParseInt (s : PyStr) : Option Int :=
  match pyStrip s with
  | '-' :: rest => (digitsToNat rest).map (fun n => -(n : Int))
  | '+' :: rest => (digitsToNat rest).map Int.ofNat
  | t => (digitsToNat t).map Int.ofNat

/-- Python `str(i)` for an integer (decimal rendering). -/
def intToChars : Int → PyStr
  | Int.ofNat n => Nat.toDigits 10 n
  | Int.negSucc n => '-' :: Nat.toDigits 10 (n + 1)

/-! ## Fault remapping: `Device._traceback_execute` (src/belay/device.py) -/

/-- The pseudo-file field the remapper recognizes. -/
def stdinMarker : PyStr := "File \"<stdin>\"".data

/-- One iteration of the line loop in `Device._traceback_execute`: split the
stripped line on commas into at most three fields (`line.strip().split(",", 2)`;
fewer than three fields is the caught `ValueError`, so the line is kept); a
line whose first field is exactly `File "<stdin>"` and whose third field is
exactly `" in " + name` is replaced by the host location and followed by the
host source text at the corrected line; every other line is kept unchanged.
`getLine` models `linecache.getline` on `src_file`; the result `none` models
the uncaught `ValueError` of `int()` on a malformed line-number field. -/
def processLine (src_file : PyStr) (src_lineno : Int) (name : PyStr)
    (getLine : Int → PyStr) (line : PyStr) : Option (List PyStr) :=
  match splitComma2 (pyStrip line) with
  | [file, linenoField, fn] =>
    if file = stdinMarker ∧ fn = " in ".data ++ name then
      match pyParseInt (linenoField.drop 6) with
      | some remote =>
        let corrected := remote - 1 + src_lineno
        some ["  File \"".data ++ src_file ++ "\", line ".data
                ++ intToChars corrected ++ [','] ++ fn,
              "    ".data ++ pyStrip (getLine corrected)]
      | none => none
    else some [line]
  | _ => some [line]

/-- The whole message rewrite of `Device._traceback_execute`: split the fault
message on newlines, process each line, and rejoin the accumulated lines. -/
def remapMessage (src_file : PyStr) (src_lineno : Int) (name : PyStr)
    (getLine : Int → PyStr) (msg : PyStr) : Option PyStr :=
  ((splitOnChar '\n' msg).mapM (processLine src_file src_lineno name getLine)).map
    (fun chunks => joinWith '\n' chunks.flatten)

/-- Faults escaping `Device._traceback_execute`: the re-raised
`PyboardException` carrying the rewritten message, or the uncaught
`ValueError` from a malformed line-number field. -/
inductive PyFault where
  | pyboard (msg : PyStr)
  | valueError
deriving DecidableEq

/-- Embedding of `Device._traceback_execute`: `res` is the outcome of invoking
`cmd` on the device (`Except.error msg` models a raised `PyboardException`
with message `msg`).  A success is returned as is; a fault has its message
rewritten and is re-raised. -/
def traceback_execute {α : Type} (res : Except PyStr α) (src_file : PyStr)
    (src_lineno : Int) (name : PyStr) (getLine : Int → PyStr) :
    Except PyFault α :=
  match res with
  | .ok v => .ok v
  | .error msg =>
    match remapMessage src_file src_lineno name getLine msg with
    | some m => .error (.pyboard m)
    | none => .error .valueError

/-! ## Executer namespaces and task/thread registration (src/belay/device.py) -/

/-- Values returned by proxy invocations: Python `None`, an opaque device
result, or a list built by the chaining machinery. -/
inductive PyVal where
  | pynone
  | atom (n : Nat)
  | list (xs : List PyVal)

/-- Remote actions observed on a device, in execution order: a task proxy's
remote function call, or a thread proxy's `_thread.start_new_thread` command. -/
inductive Ev where
  | task (d : Nat)
  | threadStart (d : Nat)
deriving DecidableEq

/-- The guard of `_Executer.__setattr__`: names starting with `_belay` or
`__belay`, and double-underscore-wrapped names, are reserved. -/
def reservedName (name : PyStr) : Bool :=
  List.isPrefixOf "_belay".data name || List.isPrefixOf "__belay".data name ||
    (List.isPrefixOf "__".data name && List.isSuffixOf "__".data name)

/-- Errors raised by the registration machinery; `reservedName` is the
`SpecialFunctionNameError` of device.py (the spec's `ReservedName`). -/
inductive RegErr where
  | reservedName
deriving DecidableEq

/-- An executer namespace's attribute mapping (most recent binding first).
`β` is the type of stored proxies. -/
abbrev Namespace (β : Type) := List (PyStr × β)

/-- Attribute lookup on an executer namespace. -/
def lookupNs {β : Type} (ns : Namespace β) (name : PyStr) : Option β :=
  match ns with
  | [] => none
  | (k, v) :: rest => if k = name then some v else lookupNs rest name

/-- Embedding of `_Executer.__setattr__`: a reserved name raises
`SpecialFunctionNameError` and binds nothing; otherwise the attribute is set. -/
def executerSetattr {β : Type} (ns : Namespace β) (name : PyStr) (v : β) :
    Except RegErr (Namespace β) :=
  if reservedName name then .error .reservedName else .ok ((name, v) :: ns)

/-- A host-side callable as the registration machinery sees it: its behavior
when called (`none` models a raised `TypeError`), paired with its optional
`_belay_level` attribute.  Calling yields the returned value together with the
ordered list of remote actions performed during the call. -/
structure TaskProxy (α : Type) where
  call : α → Option (PyVal × List Ev)
  level : Option Nat

/-- Python `[*v, ...]` unpacking: only a list may be star-unpacked here;
anything else models the raised `TypeError`. -/
def starArgs : PyVal → Option (List PyVal)
  | .list xs => some xs
  | _ => none

/-- Behavior of `multi_executer` in `_TaskExecuter.__call__`: first run this
level's `executer` (the remote call on device `d`, returning `dev a`), then —
only if the wrapped `f` carries `_belay_level` — call `f` and place its
result(s) before this level's result. -/
def taskCall {α : Type} (dev : α → PyVal) (d : Nat) (f : TaskProxy α) (a : α) :
    Option (PyVal × List Ev) :=
  let res := dev a
  match f.level with
  | none => some (res, [Ev.task d])
  | some l =>
    match f.call a with
    | none => none
    | some (pv, tr) =>
      if l = 1 then some (.list [pv, res], Ev.task d :: tr)
      else
        match starArgs pv with
        | some xs => some (.list (xs ++ [res]), Ev.task d :: tr)
        | none => none

/-- Embedding of `_TaskExecuter.__call__` on a function `f` (with `f` present):
returns the `multi_executer` proxy (first component) and the plain single-device
`executer` (second component; this is what `setattr` stores when `register` is
true).  The new `_belay_level` is one more than `f`'s, starting at 1. -/
def taskRegister {α : Type} (dev : α → PyVal) (d : Nat) (f : TaskProxy α) :
    TaskProxy α × (α → PyVal × List Ev) :=
  (⟨taskCall dev d f, some (1 + (f.level.getD 0))⟩, fun a => (dev a, [Ev.task d]))

/-- Embedding of `_TaskExecuter.__call__` including the `register` step:
when `register` is true the single-device `executer` is stored on the
namespace under `f`'s name via `_Executer.__setattr__` (which may raise);
the chained `multi_executer` is what the call returns. -/
def taskRegisterFull {α : Type} (dev : α → PyVal) (d : Nat) (f : TaskProxy α)
    (name : PyStr) (register : Bool) (ns : Namespace (α → PyVal × List Ev)) :
    Except RegErr (TaskProxy α × Namespace (α → PyVal × List Ev)) :=
  let pr := taskRegister dev d f
  if register then
    match executerSetattr ns name pr.2 with
    | .error e => .error e
    | .ok ns2 => .ok (pr.1, ns2)
  else .ok (pr.1, ns)

/-- Behavior of `multi_executer` in `_ThreadExecuter.__call__`: the thread
`executer` sends the `_thread.start_new_thread` command to device `d` and
returns `None` (its body has no return statement); chaining is identical to
the task case, operating on the `None` results. -/
def threadCall {α : Type} (d : Nat) (f : TaskProxy α) (a : α) :
    Option (PyVal × List Ev) :=
  let res := PyVal.pynone
  match f.level with
  | none => some (res, [Ev.threadStart d])
  | some l =>
    match f.call a with
    | none => none
    | some (pv, tr) =>
      if l = 1 then some (.list [pv, res], Ev.threadStart d :: tr)
      else
        match starArgs pv with
        | some xs => some (.list (xs ++ [res]), Ev.threadStart d :: tr)
        | none => none

/-- Embedding of `_ThreadExecuter.__call__` (with `f` present): the chained
proxy and the stored single-device thread `executer`, which starts the remote
thread and returns `None`. -/
def threadRegister {α : Type} (d : Nat) (f : TaskProxy α) :
    TaskProxy α × (α → PyVal × List Ev) :=
  (⟨threadCall d f, some (1 + (f.level.getD 0))⟩,
   fun _ => (PyVal.pynone, [Ev.threadStart d]))

/-- Embedding of `_ThreadExecuter.__call__` including the `register` step. -/
def threadRegisterFull {α : Type} (d : Nat) (f : TaskProxy α)
    (name : PyStr) (register : Bool) (ns : Namespace (α → PyVal × List Ev)) :
    Except RegErr (TaskProxy α × Namespace (α → PyVal × List Ev)) :=
  let pr := threadRegister d f
  if register then
    match executerSetattr ns name pr.2 with
    | .error e => .error e
    | .ok ns2 => .ok (pr.1, ns2)
  else .ok (pr.1, ns)

/-! ## Filesystem sync: `Device.sync` (src/belay/device.py)

The slice after the `sync_begin` snapshot is modelled: keep-list
normalization, narrowing of the snapshot's `all_files`, the batched remote
hash request, the upload loop, and the `sync_end` cleanup that deletes every
file still in `all_files`.  Folder walking and SHA-256 hashing stay abstract:
`all_files` is the snapshot, `dst_files` the computed destination paths of
the local files (in order), and `src_hashes`/`dst_hashes` the local digests
(of the possibly minified files) and the digests the device returned. -/

/-- The `keep` argument of `Device.sync`: `None`, a single string, or a list. -/
inductive KeepArg where
  | noArg
  | str (s : PyStr)
  | list (l : List PyStr)

/-- Errors escaping the modelled part of `Device.sync`: the `IndexError` of
`x[0]` on an empty keep entry, and the bare `raise Exception` on a digest
count mismatch (the spec's `SyncConsistencyError`). -/
inductive SyncErr where
  | indexError
  | syncConsistency
deriving DecidableEq

/-- Default keep list of `Device.sync` before `/`-prefixing. -/
def keepDefault : List PyStr := ["boot.py".data, "webrepl_cfg.py".data]

/-- One entry of `[x if x[0] == "/" else "/" + x for x in keep]`; `none`
models the `IndexError` of `x[0]` on an empty string. -/
def normalizeKeepEntry : PyStr → Option PyStr
  | [] => none
  | c :: cs => some (if c = '/' then c :: cs else '/' :: c :: cs)

/-- Keep-list defaulting of `Device.sync`: `None` becomes the default pair,
a bare string becomes a singleton list. -/
def resolveKeep : KeepArg → List PyStr
  | .noArg => keepDefault
  | .str s => [s]
  | .list l => l

/-- Keep-list normalization of `Device.sync`: defaulting followed by
`/`-prefixing of every entry. -/
def normalizeKeep (k : KeepArg) : Option (List PyStr) :=
  (resolveKeep k).mapM normalizeKeepEntry

/-- Outcome of a completed sync run: the destination paths uploaded (local
digest differed from the remote one) and the remote file paths deleted by
`sync_end` (everything left in `all_files`).  Directory handling is not part
of any claim and is omitted. -/
structure SyncOutcome where
  uploaded : List PyStr
  deleted : List PyStr
deriving DecidableEq

/-- Embedding of the file part of `Device.sync` after the `sync_begin`
snapshot: normalize `keep`; drop from `keep` the entries that are destination
paths; discard every destination path and kept path from `all_files`; request
the batched remote digests (`__belay_hfs`) and fail if the returned count
differs from the request count — this raise precedes the upload loop, so no
upload happens in that run; otherwise upload exactly the files whose local
digest differs; `sync_end` finally deletes every path still in `all_files`. -/
def syncFiles (all_files : List PyStr) (dst_files : List PyStr) (k : KeepArg)
    (src_hashes dst_hashes : List Nat) : Except SyncErr SyncOutcome :=
  match normalizeKeep k with
  | none => .error .indexError
  | some keepN =>
    if dst_hashes.length ≠ dst_files.length then .error .syncConsistency
    else
      .ok ⟨((dst_files.zip (src_hashes.zip dst_hashes)).filter
              (fun p => decide (p.2.1 ≠ p.2.2))).map Prod.fst,
           all_files.filter (fun x => decide
             (x ∉ dst_files ++ keepN.filter (fun y => decide (y ∉ dst_files))))⟩

/-! ## CLI sync command: `sync_device` (src/belay/cli/sync.py)

The CLI opens a `rich` progress display with one task and builds the closure
`progress_update(description=..., ...)` around `progress.update`; `sync_device`
passes that closure to the sync engine and, after the engine returns, calls it
once more with the description `"Complete."`.  Runs are modelled by the
ordered list of progress updates they perform. -/

/-- A call of the CLI's `progress_update` closure with a textual description. -/
inductive ProgressEv where
  | update (desc : PyStr)
deriving DecidableEq

/-- The `progress_update` closure built in `sync` (cli/sync.py): it forwards
the description to `progress.update` for the single registered task. -/
def progressCb : PyStr → ProgressEv := fun s => ProgressEv.update s

/-- Embedding of `sync_device` (cli/sync.py): invoke the sync engine with the
`progress_update` callback, then — after the engine has returned — set the
description to `"Complete."`.  The engine is the procedure
`device.sync(folder, progress_update=..., ...)`; it is a parameter here and is
given the callback; its value is the ordered list of progress updates a
successful run performs. -/
def sync_device (engine : (PyStr → ProgressEv) → List ProgressEv) :
    List ProgressEv :=
  engine progressCb ++ [progressCb "Complete.".data]

/-- Modelled from the spec: the progress-aware `Device.sync` variant the CLI
invokes (the `Device.sync` under src lacks the `progress_update` parameter the
CLI forwards; spec §4.8 says the engine "may call" the callback "with a
textual description").  This concrete engine reports one description. -/
def specSyncEngine (cb : PyStr → ProgressEv) : List ProgressEv :=
  [cb "Syncing filesystem".data]

/-! ## Dependency configuration schema (src/belay/packagemanager/models.py)

The pydantic models are embedded post-normalization: `_dependencies_name_validator`
on the keys of every `dependencies` mapping, per-group validation of
`GroupConfig`, and the `main_not_in_group` validator on `BelayConfig.group`. -/

/-- Python `str.isidentifier` (ASCII subset): a nonempty string of letters,
digits and underscores not starting with a digit. -/
def isidentifier (s : PyStr) : Bool :=
  match s with
  | [] => false
  | c :: cs => (c.isAlpha || c = '_') && cs.all (fun d => d.isAlphanum || d = '_')

/-- `DependencySourceConfig` of models.py. -/
structure DependencySourceConfig where
  uri : PyStr
  rename_to_init : Bool
deriving DecidableEq

/-- A normalized dependency list (the values of a `dependencies` mapping). -/
abbrev DependencyList := List DependencySourceConfig

/-- `GroupConfig` of models.py (validated form). -/
structure GroupConfig where
  optional : Bool
  dependencies : List (PyStr × DependencyList)
deriving DecidableEq

/-- `BelayConfig` of models.py (validated form; `dependencies_path` is not
touched by any claim and is omitted). -/
structure BelayConfig where
  name : Option PyStr
  dependencies : List (PyStr × DependencyList)
  group : List (PyStr × GroupConfig)
deriving DecidableEq

/-- Validation failures of the configuration schema (pydantic wraps them in a
`ValidationError`; the spec calls the kind `ConfigValidationError`). -/
inductive ConfigErr where
  | invalidGroupName
  | mainInGroup
deriving DecidableEq

/-- Embedding of `_dependencies_name_validator`: every key of a `dependencies`
mapping must be a valid identifier. -/
def depNameValidation (deps : List (PyStr × DependencyList)) :
    Except ConfigErr (List (PyStr × DependencyList)) :=
  if deps.all (fun p => isidentifier p.1) then .ok deps
  else .error .invalidGroupName

/-- Validation run by loading one `GroupConfig`: its `dependencies` keys are
identifier-checked. -/
def loadGroupConfig (opt : Bool) (deps : List (PyStr × DependencyList)) :
    Except ConfigErr GroupConfig :=
  match depNameValidation deps with
  | .error e => .error e
  | .ok d => .ok ⟨opt, d⟩

/-- Parsing the `group` field value: every group value is validated as a
`GroupConfig`; the group keys themselves are only typed as strings. -/
def validateGroups : List (PyStr × (Bool × List (PyStr × DependencyList))) →
    Except ConfigErr (List (PyStr × GroupConfig))
  | [] => .ok []
  | (k, (opt, deps)) :: rest =>
    match loadGroupConfig opt deps with
    | .error e => .error e
    | .ok gc =>
      match validateGroups rest with
      | .error e => .error e
      | .ok gs => .ok ((k, gc) :: gs)

/-- Embedding of the `main_not_in_group` validator of `BelayConfig`. -/
def mainNotInGroup (g : List (PyStr × GroupConfig)) :
    Except ConfigErr (List (PyStr × GroupConfig)) :=
  if g.any (fun p => decide (p.1 = "main".data)) then .error .mainInGroup
  else .ok g

/-- Loading a `BelayConfig` from already-normalized field values: validate the
top-level `dependencies` keys, validate every group value as a `GroupConfig`,
then run `main_not_in_group` on the group mapping. -/
def loadBelayConfig (name : Option PyStr)
    (deps : List (PyStr × DependencyList))
    (group : List (PyStr × (Bool × List (PyStr × DependencyList)))) :
    Except ConfigErr BelayConfig :=
  match depNameValidation deps with
  | .error e => .error e
  | .ok d =>
    match validateGroups group with
    | .error e => .error e
    | .ok g =>
      match mainNotInGroup g with
      | .error e => .error e
      | .ok g2 => .ok ⟨name, d, g2⟩

/-! ## Helper lemmas about the string primitives -/

theorem splitOnCharA_append (c : Char) (p r : PyStr) (h : c ∉ p) :
    splitOnCharA c (p ++ c :: r) =
      (p, (splitOnCharA c r).1 :: (splitOnCharA c r).2) := by
  induction p with
  | nil => simp [splitOnCharA]
  | cons x xs ih =>
    have hx : ¬ x = c := by
      rintro rfl
      exact h (List.mem_cons_self x xs)
    have hxs : c ∉ xs := fun hm => h (List.mem_cons_of_mem _ hm)
    simp [splitOnCharA, hx, ih hxs]

theorem joinWith_splitOnChar (c : Char) (s : PyStr) :
    joinWith c ((splitOnCharA c s).1 :: (splitOnCharA c s).2) = s := by
  induction s with
  | nil => rfl
  | cons x xs ih =>
    by_cases hx : x = c
    · simp only [splitOnCharA, if_pos hx]
      show [] ++ c :: joinWith c ((splitOnCharA c xs).1 :: (splitOnCharA c xs).2) = x :: xs
      rw [List.nil_append, ih, hx]
    · simp only [splitOnCharA, if_neg hx]
      rcases hA : (splitOnCharA c xs).2 with _ | ⟨y, t⟩
      · rw [hA] at ih
        simp only [joinWith] at ih ⊢
        rw [ih]
      · rw [hA] at ih
        simp only [joinWith] at ih ⊢
        rw [List.cons_append, ih]

theorem splitComma2_of_form (g1 g2 rest : PyStr) (h1 : ',' ∉ g1) (h2 : ',' ∉ g2) :
    splitComma2 (g1 ++ ',' :: (g2 ++ ',' :: rest)) = [g1, g2, rest] := by
  unfold splitComma2 splitOnChar
  rw [splitOnCharA_append ',' g1 _ h1, splitOnCharA_append ',' g2 _ h2]
  rcases hA : (splitOnCharA ',' rest).2 with _ | ⟨y, t⟩
  · have hj := joinWith_splitOnChar ',' rest
    rw [hA] at hj
    simp only [joinWith] at hj
    simp [hj]
  · have hj := joinWith_splitOnChar ',' rest
    rw [hA] at hj
    have hlen : ¬ (g1 :: g2 :: (splitOnCharA ',' rest).1 :: y :: t).length ≤ 3 := by
      simp [List.length_cons]
    rw [if_neg hlen]
    simp only [List.take, List.drop]
    rw [hj]
    rfl

/-! ## Claims -/

/-- C1: a fault line of the form `File "<stdin>", line N, in name` (for the
registered function's `name`) is replaced by a line naming the host
`src_file` with corrected line number `N - 1 + src_lineno` and is followed by
the host source text at the corrected line, whitespace-stripped and 4-space
indented; a line that does not split on commas into three fields, or whose
pseudo-file field is not exactly `File "<stdin>"`, or whose function field is
not `" in " + name`, is kept unchanged; and the fault is re-raised with the
rewritten message, never swallowed. -/
theorem C1_fault_remapping
    (src_file name ds badline msg m2 : PyStr) (src_lineno N : Int)
    (getLine : Int → PyStr) (line : PyStr)
    (h1 : pyStrip line =
      stdinMarker ++ ',' :: ((" line ".data ++ ds) ++ ',' :: (" in ".data ++ name)))
    (h2 : ',' ∉ ds)
    (h3 : pyParseInt ds = some N)
    (h4 : (splitComma2 (pyStrip badline)).length ≠ 3 ∨
      ∃ f1 f2 f3, splitComma2 (pyStrip badline) = [f1, f2, f3] ∧
        (f1 ≠ stdinMarker ∨ f3 ≠ " in ".data ++ name))
    (h5 : remapMessage src_file src_lineno name getLine msg = some m2) :
    processLine src_file src_lineno name getLine line =
      some ["  File \"".data ++ src_file ++ "\", line ".data
              ++ intToChars (N - 1 + src_lineno) ++ [','] ++ (" in ".data ++ name),
            "    ".data ++ pyStrip (getLine (N - 1 + src_lineno))]
    ∧ processLine src_file src_lineno name getLine badline = some [badline]
    ∧ traceback_execute (α := Unit) (Except.error msg) src_file src_lineno name getLine =
        Except.error (PyFault.pyboard m2)
    ∧ ∀ m3 : PyStr, ∃ fault : PyFault,
        traceback_execute (α := Unit) (Except.error m3) src_file src_lineno name getLine =
          Except.error fault := by
  refine ⟨?_, ?_, ?_, ?_⟩
  · have hcomma : ',' ∉ " line ".data ++ ds := by
      intro hm
      rcases List.mem_append.mp hm with hc | hc
      · exact absurd hc (by decide)
      · exact h2 hc
    have hdrop : (" line ".data ++ ds).drop 6 = ds := rfl
    unfold processLine
    rw [h1, splitComma2_of_form _ _ _ (by decide) hcomma]
    simp only [and_self, if_true, hdrop, h3]
  · unfold processLine
    rcases h4 with hlen | ⟨f1, f2, f3, hsp, hne⟩
    · rcases hsp2 : splitComma2 (pyStrip badline) with _ | ⟨a, _ | ⟨b, _ | ⟨c, _ | d⟩⟩⟩
      · rfl
      · rfl
      · rfl
      · exact absurd (by rw [hsp2]; rfl) hlen
      · rfl
    · rw [hsp]
      have hng : ¬ (f1 = stdinMarker ∧ f3 = " in ".data ++ name) := by
        rcases hne with hne | hne
        · exact fun hc => hne hc.1
        · exact fun hc => hne hc.2
      simp only [if_neg hng]
  · simp only [traceback_execute, h5]
  · intro m3
    rcases hr : remapMessage src_file src_lineno name getLine m3 with _ | mm
    · exact ⟨.valueError, by simp [traceback_execute, hr]⟩
    · exact ⟨.pyboard mm, by simp [traceback_execute, hr]⟩

/-- Witness for C1 at the spec's example: fault line `File "<stdin>", line 6,
in my_func`, function starting at line 40 of `/proj/app.py`, remapped to line
45 with that line's source text appended; a plain traceback header line is
kept; the two-line fault message is re-raised rewritten. -/
theorem C1_fault_remapping_witness :
    processLine "/proj/app.py".data 40 "my_func".data
        (fun i => if i = 45 then "        return 1/0\n".data else [])
        "  File \"<stdin>\", line 6, in my_func".data =
      some ["  File \"/proj/app.py\", line 45, in my_func".data,
            "    return 1/0".data]
    ∧ processLine "/proj/app.py".data 40 "my_func".data
        (fun i => if i = 45 then "        return 1/0\n".data else [])
        "Traceback (most recent call last):".data =
      some ["Traceback (most recent call last):".data]
    ∧ traceback_execute (α := Unit)
        (Except.error
          "Traceback (most recent call last):\n  File \"<stdin>\", line 6, in my_func".data)
        "/proj/app.py".data 40 "my_func".data
        (fun i => if i = 45 then "        return 1/0\n".data else []) =
      Except.error (PyFault.pyboard
        "Traceback (most recent call last):\n  File \"/proj/app.py\", line 45, in my_func\n    return 1/0".data)
    ∧ ∀ m3 : PyStr, ∃ fault : PyFault,
        traceback_execute (α := Unit) (Except.error m3) "/proj/app.py".data 40
          "my_func".data
          (fun i => if i = 45 then "        return 1/0\n".data else []) =
          Except.error fault := by
  exact C1_fault_remapping "/proj/app.py".data "my_func".data "6".data
    "Traceback (most recent call last):".data
    "Traceback (most recent call last):\n  File \"<stdin>\", line 6, in my_func".data
    "Traceback (most recent call last):\n  File \"/proj/app.py\", line 45, in my_func\n    return 1/0".data
    40 6
    (fun i => if i = 45 then "        return 1/0\n".data else [])
    "  File \"<stdin>\", line 6, in my_func".data
    (by decide) (by decide) (by decide) (Or.inl (by decide)) (by decide)

/-- C2: with normalized keep-list `keepN`, every kept path and every
destination path of a local file is removed from the snapshot's `all_files`
before the cleanup pass and is never deleted — the kept paths even when no
corresponding local file exists — while every remote-only, non-kept file is
deleted; the default keep-list is `/boot.py`, `/webrepl_cfg.py`, and every
entry is `/`-prefixed exactly when the prefix is missing. -/
theorem C2_sync_keep_list
    (all_files dst_files : List PyStr) (k : KeepArg) (keepN : List PyStr)
    (src_hashes dst_hashes : List Nat) (out : SyncOutcome)
    (hk : normalizeKeep k = some keepN)
    (hrun : syncFiles all_files dst_files k src_hashes dst_hashes = Except.ok out) :
    (∀ p ∈ keepN, p ∉ out.deleted)
    ∧ (∀ p ∈ dst_files, p ∉ out.deleted)
    ∧ (∀ r ∈ all_files, r ∉ dst_files → r ∉ keepN → r ∈ out.deleted)
    ∧ normalizeKeep KeepArg.noArg = some ["/boot.py".data, "/webrepl_cfg.py".data]
    ∧ (∀ s : PyStr, ∀ c : Char, c ≠ '/' →
        normalizeKeepEntry (c :: s) = some ('/' :: c :: s)
        ∧ normalizeKeepEntry ('/' :: s) = some ('/' :: s)) := by
  unfold syncFiles at hrun
  split at hrun
  · rename_i heq
    rw [hk] at heq
    cases heq
  · rename_i kN heq
    rw [hk] at heq
    injection heq with he
    subst he
    split at hrun
    · cases hrun
    injection hrun with hout
    have hdel : out.deleted =
        all_files.filter (fun x => decide
          (x ∉ dst_files ++ keepN.filter (fun y => decide (y ∉ dst_files)))) := by
      rw [← hout]
    refine ⟨?_, ?_, ?_, by decide, ?_⟩
    · intro p hp hmem
      rw [hdel] at hmem
      have hpred := (List.mem_filter.mp hmem).2
      simp only [decide_eq_true_eq] at hpred
      by_cases hpd : p ∈ dst_files
      · exact hpred (List.mem_append.mpr (Or.inl hpd))
      · refine hpred (List.mem_append.mpr (Or.inr ?_))
        exact List.mem_filter.mpr ⟨hp, by simpa using hpd⟩
    · intro p hp hmem
      rw [hdel] at hmem
      have hpred := (List.mem_filter.mp hmem).2
      simp only [decide_eq_true_eq] at hpred
      exact hpred (List.mem_append.mpr (Or.inl hp))
    · intro r hr hrd hrk
      rw [hdel]
      refine List.mem_filter.mpr ⟨hr, ?_⟩
      simp only [decide_eq_true_eq]
      intro hm
      rcases List.mem_append.mp hm with hc | hc
      · exact hrd hc
      · exact hrk (List.mem_filter.mp hc).1
    · intro s c hc
      constructor
      · simp [normalizeKeepEntry, hc]
      · simp [normalizeKeepEntry]

/-- Witness for C2 at the spec's example: snapshot `/a.py`, `/keep.me` and a
third remote-only file `/zombie.txt`; local folder contributing only `/a.py`
(digests equal, so nothing is uploaded); keep-list `["/keep.me"]`.  `/a.py`
and `/keep.me` survive, `/zombie.txt` is deleted. -/
theorem C2_sync_keep_list_witness :
    (∀ p ∈ ["/keep.me".data], p ∉ (SyncOutcome.mk [] ["/zombie.txt".data]).deleted)
    ∧ (∀ p ∈ ["/a.py".data], p ∉ (SyncOutcome.mk [] ["/zombie.txt".data]).deleted)
    ∧ (∀ r ∈ ["/a.py".data, "/keep.me".data, "/zombie.txt".data],
        r ∉ ["/a.py".data] → r ∉ ["/keep.me".data] →
          r ∈ (SyncOutcome.mk [] ["/zombie.txt".data]).deleted)
    ∧ normalizeKeep KeepArg.noArg = some ["/boot.py".data, "/webrepl_cfg.py".data]
    ∧ (∀ s : PyStr, ∀ c : Char, c ≠ '/' →
        normalizeKeepEntry (c :: s) = some ('/' :: c :: s)
        ∧ normalizeKeepEntry ('/' :: s) = some ('/' :: s)) := by
  exact C2_sync_keep_list
    ["/a.py".data, "/keep.me".data, "/zombie.txt".data] ["/a.py".data]
    (KeepArg.list ["/keep.me".data]) ["/keep.me".data] [7] [7]
    (SyncOutcome.mk [] ["/zombie.txt".data]) (by decide) rfl

/-- C5: when the batched remote hash request returns a digest count different
from the number of requested destination files, the sync run fails with the
consistency error (device.py raises before the upload loop), and no outcome —
in particular no upload — is produced by that run. -/
theorem C5_digest_count_mismatch
    (all_files dst_files : List PyStr) (k : KeepArg) (keepN : List PyStr)
    (src_hashes dst_hashes : List Nat)
    (hk : normalizeKeep k = some keepN)
    (hlen : dst_hashes.length ≠ dst_files.length) :
    syncFiles all_files dst_files k src_hashes dst_hashes =
      Except.error SyncErr.syncConsistency
    ∧ ∀ out : SyncOutcome,
        syncFiles all_files dst_files k src_hashes dst_hashes ≠ Except.ok out := by
  have hmain : syncFiles all_files dst_files k src_hashes dst_hashes =
      Except.error SyncErr.syncConsistency := by
    unfold syncFiles
    split
    · rename_i heq
      rw [hk] at heq
      cases heq
    · rename_i kN heq
      rw [hk] at heq
      injection heq with he
      subst he
      rw [if_pos hlen]
  refine ⟨hmain, fun out h => ?_⟩
  rw [hmain] at h
  cases h

/-- Witness for C5: one destination file but an empty digest reply fails the
run with the consistency error. -/
theorem C5_digest_count_mismatch_witness :
    syncFiles ["/a.py".data] ["/a.py".data] (KeepArg.list []) [7] [] =
      Except.error SyncErr.syncConsistency
    ∧ ∀ out : SyncOutcome,
        syncFiles ["/a.py".data] ["/a.py".data] (KeepArg.list []) [7] [] ≠
          Except.ok out := by
  exact C5_digest_count_mismatch ["/a.py".data] ["/a.py".data]
    (KeepArg.list []) [] [7] [] (by decide) (by decide)

/-- C3: registering the same function as a task on devices A, then B, then C
(each registration wrapping the previously returned proxy) yields a proxy
whose invocation returns exactly the ordered sequence of A's, B's and C's
results, the prior levels' sequence being recursively flattened, and whose
chain length grows by one per registration, starting at 1. -/
theorem C3_chained_task_results {α : Type} (devA devB devC : α → PyVal)
    (dA dB dC : Nat) (f0 : TaskProxy α) (h : f0.level = none) (a : α) :
    ((taskRegister devC dC
        ((taskRegister devB dB ((taskRegister devA dA f0).1)).1)).1.call a).map
        Prod.fst =
      some (PyVal.list [devA a, devB a, devC a])
    ∧ (taskRegister devA dA f0).1.level = some 1
    ∧ (taskRegister devB dB ((taskRegister devA dA f0).1)).1.level = some 2
    ∧ (taskRegister devC dC
        ((taskRegister devB dB ((taskRegister devA dA f0).1)).1)).1.level = some 3 := by
  refine ⟨?_, ?_, ?_, ?_⟩
  · simp [taskRegister, taskCall, h, starArgs]
  · simp [taskRegister, h]
  · simp [taskRegister, h]
  · simp [taskRegister, h]

/-- Witness for C3: three concrete devices returning 10, 20 and 30 on a
fresh host function of level `none`. -/
theorem C3_chained_task_results_witness :
    ((taskRegister (fun _ : Nat => PyVal.atom 30) 2
        ((taskRegister (fun _ : Nat => PyVal.atom 20) 1
          ((taskRegister (fun _ : Nat => PyVal.atom 10) 0
            ⟨fun _ => some (PyVal.atom 99, []), none⟩).1)).1)).1.call 5).map
        Prod.fst =
      some (PyVal.list [PyVal.atom 10, PyVal.atom 20, PyVal.atom 30])
    ∧ (taskRegister (fun _ : Nat => PyVal.atom 10) 0
        ⟨fun _ => some (PyVal.atom 99, []), none⟩).1.level = some 1
    ∧ (taskRegister (fun _ : Nat => PyVal.atom 20) 1
        ((taskRegister (fun _ : Nat => PyVal.atom 10) 0
          ⟨fun _ => some (PyVal.atom 99, []), none⟩).1)).1.level = some 2
    ∧ (taskRegister (fun _ : Nat => PyVal.atom 30) 2
        ((taskRegister (fun _ : Nat => PyVal.atom 20) 1
          ((taskRegister (fun _ : Nat => PyVal.atom 10) 0
            ⟨fun _ => some (PyVal.atom 99, []), none⟩).1)).1)).1.level = some 3 := by
  exact C3_chained_task_results (fun _ => PyVal.atom 10) (fun _ => PyVal.atom 20)
    (fun _ => PyVal.atom 30) 0 1 2 ⟨fun _ => some (PyVal.atom 99, []), none⟩ rfl 5

/-- C6 counterexample: for a function registered on device 0 and then device
1, invoking the outer proxy performs device 1's remote call first and device
0's afterwards — the observed order `[task 1, task 0]` is not the
registration order `[task 0, task 1]` the claim asserts. -/
theorem C6_counterexample :
    (((taskRegister (fun _ : Nat => PyVal.atom 1) 1
        ((taskRegister (fun _ : Nat => PyVal.atom 0) 0
          ⟨fun _ => some (PyVal.atom 9, []), none⟩).1)).1.call 0).map Prod.snd =
      some [Ev.task 1, Ev.task 0])
    ∧ (some [Ev.task 1, Ev.task 0] ≠ some [Ev.task 0, Ev.task 1]) := by
  constructor
  · rfl
  · decide

/-- C6 amended: invoking the outermost proxy of a multi-level fan-out
executes the levels strictly sequentially — the model's single ordered action
list, each call completing before the next — but in reverse registration
order: each proxy performs its own level's remote invocation first and only
then calls the prior level's proxy; the returned results are nonetheless
assembled in registration order. -/
theorem C6_sequential_reverse_order {α : Type} (devA devB devC : α → PyVal)
    (dA dB dC : Nat) (f0 : TaskProxy α) (h : f0.level = none) (a : α) :
    ((taskRegister devC dC
        ((taskRegister devB dB ((taskRegister devA dA f0).1)).1)).1.call a).map
        Prod.snd =
      some [Ev.task dC, Ev.task dB, Ev.task dA]
    ∧ ((taskRegister devB dB ((taskRegister devA dA f0).1)).1.call a).map
        Prod.snd =
      some [Ev.task dB, Ev.task dA]
    ∧ ((taskRegister devC dC
        ((taskRegister devB dB ((taskRegister devA dA f0).1)).1)).1.call a).map
        Prod.fst =
      some (PyVal.list [devA a, devB a, devC a]) := by
  refine ⟨?_, ?_, ?_⟩
  · simp [taskRegister, taskCall, h, starArgs]
  · simp [taskRegister, taskCall, h]
  · simp [taskRegister, taskCall, h, starArgs]

/-- Witness for the amended C6 on concrete devices 0, 1, 2. -/
theorem C6_sequential_reverse_order_witness :
    ((taskRegister (fun _ : Nat => PyVal.atom 30) 2
        ((taskRegister (fun _ : Nat => PyVal.atom 20) 1
          ((taskRegister (fun _ : Nat => PyVal.atom 10) 0
            ⟨fun _ => some (PyVal.atom 99, []), none⟩).1)).1)).1.call 5).map
        Prod.snd =
      some [Ev.task 2, Ev.task 1, Ev.task 0]
    ∧ ((taskRegister (fun _ : Nat => PyVal.atom 20) 1
        ((taskRegister (fun _ : Nat => PyVal.atom 10) 0
          ⟨fun _ => some (PyVal.atom 99, []), none⟩).1)).1.call 5).map
        Prod.snd =
      some [Ev.task 1, Ev.task 0]
    ∧ ((taskRegister (fun _ : Nat => PyVal.atom 30) 2
        ((taskRegister (fun _ : Nat => PyVal.atom 20) 1
          ((taskRegister (fun _ : Nat => PyVal.atom 10) 0
            ⟨fun _ => some (PyVal.atom 99, []), none⟩).1)).1)).1.call 5).map
        Prod.fst =
      some (PyVal.list [PyVal.atom 10, PyVal.atom 20, PyVal.atom 30]) := by
  exact C6_sequential_reverse_order (fun _ => PyVal.atom 10)
    (fun _ => PyVal.atom 20) (fun _ => PyVal.atom 30) 0 1 2
    ⟨fun _ => some (PyVal.atom 99, []), none⟩ rfl 5

/-- C7: a thread-registered proxy starts a device-side thread and returns
Python `None` — no device value is captured; for chained thread
registrations every level is invoked (both thread-start actions appear) and
the returned value collects no device outputs, only `None` placeholders. -/
theorem C7_thread_fire_and_forget {α : Type} (dA dB : Nat) (f0 : TaskProxy α)
    (h : f0.level = none) (a : α) :
    (threadRegister dA f0).1.call a = some (PyVal.pynone, [Ev.threadStart dA])
    ∧ (threadRegister dB ((threadRegister dA f0).1)).1.call a =
        some (PyVal.list [PyVal.pynone, PyVal.pynone],
              [Ev.threadStart dB, Ev.threadStart dA]) := by
  constructor
  · simp [threadRegister, threadCall, h]
  · simp [threadRegister, threadCall, h]

/-- Witness for C7 on concrete devices 0 and 1. -/
theorem C7_thread_fire_and_forget_witness :
    (threadRegister 0 (⟨fun _ => some (PyVal.atom 99, []), none⟩ : TaskProxy Nat)).1.call 5 =
      some (PyVal.pynone, [Ev.threadStart 0])
    ∧ (threadRegister 1
        ((threadRegister 0
          (⟨fun _ => some (PyVal.atom 99, []), none⟩ : TaskProxy Nat)).1)).1.call 5 =
        some (PyVal.list [PyVal.pynone, PyVal.pynone],
              [Ev.threadStart 1, Ev.threadStart 0]) := by
  exact C7_thread_fire_and_forget 0 1 ⟨fun _ => some (PyVal.atom 99, []), none⟩ rfl 5

/-- C4: registering a task or thread function under a name starting with the
reserved `_belay` marker, or under a double-underscore-wrapped name, raises
`SpecialFunctionNameError` (the spec's `ReservedName`) and binds nothing on
the namespace — the registration call returns no proxy and no updated
namespace; `_belay_test` and `__secret__` are reserved, while registering
`valid_name` succeeds and the name becomes an attribute of the namespace. -/
theorem C4_reserved_registration_names {α : Type} (dev : α → PyVal) (d : Nat)
    (f : TaskProxy α) (ns : Namespace (α → PyVal × List Ev)) (name1 name2 : PyStr)
    (h1 : List.isPrefixOf "_belay".data name1 = true)
    (h2 : List.isPrefixOf "__".data name2 = true ∧
          List.isSuffixOf "__".data name2 = true) :
    reservedName name1 = true
    ∧ reservedName name2 = true
    ∧ taskRegisterFull dev d f name1 true ns = Except.error RegErr.reservedName
    ∧ threadRegisterFull d f name2 true ns = Except.error RegErr.reservedName
    ∧ reservedName "_belay_test".data = true
    ∧ reservedName "__secret__".data = true
    ∧ reservedName "valid_name".data = false
    ∧ ∀ v : α → PyVal × List Ev,
        executerSetattr ns "valid_name".data v =
          Except.ok (("valid_name".data, v) :: ns)
        ∧ lookupNs (("valid_name".data, v) :: ns) "valid_name".data = some v := by
  have hr1 : reservedName name1 = true := by
    simp [reservedName, h1]
  have hr2 : reservedName name2 = true := by
    simp [reservedName, h2.1, h2.2]
  refine ⟨hr1, hr2, ?_, ?_, by decide, by decide, by decide, ?_⟩
  · simp [taskRegisterFull, executerSetattr, hr1]
  · simp [threadRegisterFull, executerSetattr, hr2]
  · intro v
    constructor
    · simp [executerSetattr, show reservedName "valid_name".data = false by decide]
    · simp [lookupNs]

/-- Witness for C4 at the spec's concrete names `_belay_test` (reserved
marker) and `__secret__` (double-underscore-wrapped). -/
theorem C4_reserved_registration_names_witness :
    reservedName "_belay_test".data = true
    ∧ reservedName "__secret__".data = true
    ∧ taskRegisterFull (fun _ : Nat => PyVal.atom 0) 0
        ⟨fun _ => some (PyVal.atom 9, []), none⟩ "_belay_test".data true [] =
      Except.error RegErr.reservedName
    ∧ threadRegisterFull 0
        (⟨fun _ => some (PyVal.atom 9, []), none⟩ : TaskProxy Nat)
        "__secret__".data true [] =
      Except.error RegErr.reservedName
    ∧ reservedName "_belay_test".data = true
    ∧ reservedName "__secret__".data = true
    ∧ reservedName "valid_name".data = false
    ∧ ∀ v : Nat → PyVal × List Ev,
        executerSetattr [] "valid_name".data v =
          Except.ok (("valid_name".data, v) :: [])
        ∧ lookupNs (("valid_name".data, v) :: []) "valid_name".data = some v := by
  exact C4_reserved_registration_names (fun _ => PyVal.atom 0) 0
    ⟨fun _ => some (PyVal.atom 9, []), none⟩ [] "_belay_test".data
    "__secret__".data (by decide) (by decide)

/-- C10 (implicit): with `register` true, the attribute stored on the task or
thread namespace under the function's name is the plain single-device
`executer`, not the chained `multi_executer` the registration call returns;
invoking the stored attribute performs only the owning device's remote call
and returns only that device's result — for a chained function, never the
multi-level ordered sequence (final conjunct: on a concrete level-1 chain
the proxy's result differs from the stored attribute's result). -/
theorem C10_namespace_stores_plain_executer {α : Type} (dev : α → PyVal)
    (d : Nat) (f : TaskProxy α) (name : PyStr)
    (ns : Namespace (α → PyVal × List Ev))
    (hn : reservedName name = false) :
    (∃ ns2, taskRegisterFull dev d f name true ns =
        Except.ok ((taskRegister dev d f).1, ns2)
      ∧ lookupNs ns2 name = some (fun a => (dev a, [Ev.task d])))
    ∧ (∃ ns2, threadRegisterFull d f name true ns =
        Except.ok ((threadRegister d f).1, ns2)
      ∧ lookupNs ns2 name = some (fun _ => (PyVal.pynone, [Ev.threadStart d])))
    ∧ (((taskRegister (fun _ : Nat => PyVal.atom 1) 5
          ⟨fun _ => some (PyVal.atom 0, []), some 1⟩).1.call 0).map Prod.fst ≠
        some ((taskRegister (fun _ : Nat => PyVal.atom 1) 5
          ⟨fun _ => some (PyVal.atom 0, []), some 1⟩).2 0).1) := by
  refine ⟨⟨(name, fun a => (dev a, [Ev.task d])) :: ns, ?_, ?_⟩,
          ⟨(name, fun _ => (PyVal.pynone, [Ev.threadStart d])) :: ns, ?_, ?_⟩, ?_⟩
  · simp [taskRegisterFull, executerSetattr, hn, taskRegister]
  · simp [lookupNs]
  · simp [threadRegisterFull, executerSetattr, hn, threadRegister]
  · simp [lookupNs]
  · simp [taskRegister, taskCall]

/-- Witness for C10 at the concrete name `blink` on an empty namespace. -/
theorem C10_namespace_stores_plain_executer_witness :
    (∃ ns2, taskRegisterFull (fun _ : Nat => PyVal.atom 7) 3
        ⟨fun _ => some (PyVal.atom 0, []), some 1⟩ "blink".data true [] =
        Except.ok ((taskRegister (fun _ : Nat => PyVal.atom 7) 3
          ⟨fun _ => some (PyVal.atom 0, []), some 1⟩).1, ns2)
      ∧ lookupNs ns2 "blink".data =
          some (fun a : Nat => ((fun _ : Nat => PyVal.atom 7) a, [Ev.task 3])))
    ∧ (∃ ns2, threadRegisterFull 3
        (⟨fun _ => some (PyVal.atom 0, []), some 1⟩ : TaskProxy Nat)
        "blink".data true [] =
        Except.ok ((threadRegister 3
          (⟨fun _ => some (PyVal.atom 0, []), some 1⟩ : TaskProxy Nat)).1, ns2)
      ∧ lookupNs ns2 "blink".data =
          some (fun _ : Nat => (PyVal.pynone, [Ev.threadStart 3])))
    ∧ (((taskRegister (fun _ : Nat => PyVal.atom 1) 5
          ⟨fun _ => some (PyVal.atom 0, []), some 1⟩).1.call 0).map Prod.fst ≠
        some ((taskRegister (fun _ : Nat => PyVal.atom 1) 5
          ⟨fun _ => some (PyVal.atom 0, []), some 1⟩).2 0).1) := by
  exact C10_namespace_stores_plain_executer (fun _ => PyVal.atom 7) 3
    ⟨fun _ => some (PyVal.atom 0, []), some 1⟩ "blink".data [] (by decide)

/-- Mapping then testing any element equals testing the composed predicate. -/
theorem list_any_map {α β : Type} (f : α → β) (l : List α) (p : β → Bool) :
    (l.map f).any p = l.any (fun a => p (f a)) := by
  induction l with
  | nil => rfl
  | cons x xs ih => simp [List.any, ih]

/-- Parsing the `group` mapping succeeds whenever every group's own
`dependencies` keys are valid identifiers; the group keys pass through
untouched. -/
theorem validateGroups_ok
    (l : List (PyStr × (Bool × List (PyStr × DependencyList))))
    (h : ∀ p ∈ l, (p.2.2).all (fun q => isidentifier q.1) = true) :
    validateGroups l =
      Except.ok (l.map (fun p => (p.1, GroupConfig.mk p.2.1 p.2.2))) := by
  induction l with
  | nil => rfl
  | cons p rest ih =>
    obtain ⟨k, opt, deps⟩ := p
    have hp := h _ (List.mem_cons_self _ _)
    have hrest : ∀ q ∈ rest, (q.2.2).all (fun r => isidentifier r.1) = true :=
      fun q hq => h _ (List.mem_cons_of_mem _ hq)
    unfold validateGroups loadGroupConfig depNameValidation
    rw [if_pos hp, ih hrest]
    rfl

/-- C8 counterexample: a manifest whose `group` mapping has the
non-identifier key `1bad` (with otherwise valid content) loads successfully —
the identifier validator is attached to `dependencies` mappings, not to the
`group` keys — refuting the claim that it fails with
`ConfigValidationError`. -/
theorem C8_counterexample :
    loadBelayConfig none [] [("1bad".data, (false, []))] =
      Except.ok (BelayConfig.mk none [] [("1bad".data, GroupConfig.mk false [])])
    ∧ isidentifier "1bad".data = false := by
  constructor
  · rfl
  · decide

/-- C8 amended: a manifest whose `group` mapping contains the key `main`
fails with `ConfigValidationError` (the validator directing the user to the
top-level `dependencies` field); a `dependencies` mapping (top level or
inside a group) whose keys are not all valid identifiers fails with
`ConfigValidationError`; but the `group` keys themselves are not
identifier-validated: any group mapping without `main` whose groups' own
`dependencies` keys are valid loads successfully, whatever its keys. -/
theorem C8_group_validation
    (name : Option PyStr) (deps badDeps : List (PyStr × DependencyList))
    (group g2 : List (PyStr × (Bool × List (PyStr × DependencyList))))
    (hdeps : deps.all (fun p => isidentifier p.1) = true)
    (hgroups : ∀ p ∈ group, (p.2.2).all (fun q => isidentifier q.1) = true)
    (hmain : group.any (fun p => decide (p.1 = "main".data)) = true)
    (hbad : badDeps.all (fun p => isidentifier p.1) = false)
    (hg2 : ∀ p ∈ g2, (p.2.2).all (fun q => isidentifier q.1) = true)
    (hg2m : ∀ p ∈ g2, p.1 ≠ "main".data) :
    loadBelayConfig name deps group = Except.error ConfigErr.mainInGroup
    ∧ loadBelayConfig name badDeps group = Except.error ConfigErr.invalidGroupName
    ∧ loadBelayConfig name deps g2 =
        Except.ok (BelayConfig.mk name deps
          (g2.map (fun p => (p.1, GroupConfig.mk p.2.1 p.2.2)))) := by
  refine ⟨?_, ?_, ?_⟩
  · have hany : ((group.map (fun p => (p.1, GroupConfig.mk p.2.1 p.2.2))).any
        (fun p => decide (p.1 = "main".data))) = true := by
      rw [list_any_map]
      simpa using hmain
    unfold loadBelayConfig depNameValidation
    rw [if_pos hdeps, validateGroups_ok _ hgroups]
    unfold mainNotInGroup
    simp [hany]
  · unfold loadBelayConfig depNameValidation
    simp [hbad]
  · have hany : ((g2.map (fun p => (p.1, GroupConfig.mk p.2.1 p.2.2))).any
        (fun p => decide (p.1 = "main".data))) = false := by
      rw [list_any_map]
      simp only [List.any_eq_false]
      intro p hp
      simpa using hg2m p hp
    unfold loadBelayConfig depNameValidation
    rw [if_pos hdeps, validateGroups_ok _ hg2]
    unfold mainNotInGroup
    simp [hany]

/-- Witness for C8 amended: the spec example manifests — `group` containing
`main` fails, a `dependencies` mapping with key `1bad` fails, and a `group`
keyed by the non-identifier `1bad` (with valid contents) loads. -/
theorem C8_group_validation_witness :
    loadBelayConfig none [("dep1".data, [])] [("main".data, (false, []))] =
      Except.error ConfigErr.mainInGroup
    ∧ loadBelayConfig none [("1bad".data, [])] [("main".data, (false, []))] =
        Except.error ConfigErr.invalidGroupName
    ∧ loadBelayConfig none [("dep1".data, [])] [("1bad".data, (false, []))] =
        Except.ok (BelayConfig.mk none [("dep1".data, [])]
          ([("1bad".data, (false, []))].map
            (fun p => (p.1, GroupConfig.mk p.2.1 p.2.2)))) := by
  exact C8_group_validation none [("dep1".data, [])] [("1bad".data, [])]
    [("main".data, (false, []))] [("1bad".data, (false, []))]
    (by decide) (by decide) (by decide) (by decide) (by decide) (by decide)

/-- C9: the CLI sync command's `sync_device` invokes the sync engine
forwarding the `progress_update` callback (the engine receives `progressCb`
itself) and, after the engine returns, performs exactly one more progress
update setting the description to `Complete.` — it is the final event,
placed after every event of the engine's successful run, whose events keep
their positions. -/
theorem C9_cli_sync_complete
    (engine : (PyStr → ProgressEv) → List ProgressEv) (tr : List ProgressEv)
    (h : engine progressCb = tr) :
    sync_device engine = tr ++ [ProgressEv.update "Complete.".data]
    ∧ (sync_device engine).getLast? = some (ProgressEv.update "Complete.".data)
    ∧ ∀ i, i < tr.length → (sync_device engine)[i]? = tr[i]? := by
  have hs : sync_device engine = tr ++ [ProgressEv.update "Complete.".data] := by
    unfold sync_device
    rw [h]
    rfl
  refine ⟨hs, ?_, ?_⟩
  · rw [hs]
    exact List.getLast?_concat _
  · intro i hi
    rw [hs]
    exact List.getElem?_append_left hi

/-- Witness for C9 with the spec-modelled engine reporting one description. -/
theorem C9_cli_sync_complete_witness :
    sync_device specSyncEngine =
      [ProgressEv.update "Syncing filesystem".data]
        ++ [ProgressEv.update "Complete.".data]
    ∧ (sync_device specSyncEngine).getLast? =
        some (ProgressEv.update "Complete.".data)
    ∧ ∀ i, i < [ProgressEv.update "Syncing filesystem".data].length →
        (sync_device specSyncEngine)[i]? =
          [ProgressEv.update "Syncing filesystem".data][i]? := by
  exact C9_cli_sync_complete specSyncEngine
    [ProgressEv.update "Syncing filesystem".data] rfl
